import Mathlib

/-!
Verification of the Snappx TRL-3 / Run 1 simulation engine
(`src/snappx_trl3_run1.py`, with `src/bandits.py` as a near-identical twin).

Modelling conventions:
* Python `int` is modelled by `ℤ`, Python `float` by `ℚ` (the source only
  performs field arithmetic, `max`/`min` clamps and comparisons on floats).
* The globally seeded pseudo-random generator is abstracted as oracle
  streams passed to the simulation: `arrO` gives the raw values behind the
  `random.randrange(horizon_s)` arrival draws, `pick` the values behind the
  `random_policy` (randrange) draws, `betaO` the `random.betavariate`
  samples, `bern` the `random.random()` draws.  A concrete seed corresponds
  to one concrete choice of oracles, so properties quantified over all
  oracles cover every run of the source.
* Python exceptions are modelled by `Except String`, the error text echoing
  the exception raised by the source (`ValueError` messages).
* In-place mutation of the caller's `Drop` objects is modelled by the
  simulation returning the final drop list alongside the metrics.
-/

/-- `Drop` dataclass from the source: one offer with intrinsic conversion
probability, remaining stock, total duration and outcome counters. -/
structure Drop where
  name : String
  base_p : ℚ
  stock : ℤ
  duration_s : ℤ
  sold : ℤ := 0
  redemptions : ℤ := 0
deriving Repr, DecidableEq, Inhabited

/-- `urgency_multiplier(t_remaining, total, k=1.25)` from the source:
if `total <= 0` return `1.0`; else clamp `t_remaining/total` to `[0,1]`,
form `1 + k*(1 - x)` and clamp to `[0.2, 2.0]`. -/
def urgency_multiplier (t_remaining total : ℚ) (k : ℚ := 5/4) : ℚ :=
  if total ≤ 0 then 1
  else
    let x : ℚ := max 0 (min 1 (t_remaining / total))
    let mult : ℚ := 1 + k * (1 - x)
    max (1/5) (min 2 mult)

/-- `observed_conversion(p_base, t_remaining, total)` from the source:
clamp `p_base * urgency_multiplier(...)` to `[0, 1]`. -/
def observed_conversion (p_base t_remaining total : ℚ) : ℚ :=
  max 0 (min 1 (p_base * urgency_multiplier t_remaining total))

/-- Clamp written the way the spec words it: `clamp(v, lo, hi)`. -/
def spec_clamp (v lo hi : ℚ) : ℚ := max lo (min hi v)

/-- The effective probability exactly as §4.1 of the spec words it:
`x = clamp(t_remaining/total, 0, 1)` (multiplier exactly `1.0` when
`total ≤ 0`), `m = clamp(1 + k·(1−x), 0.2, 2.0)`, result
`clamp(base_p · m, 0, 1)`. -/
def spec_effective_p (base_p t_remaining total k : ℚ) : ℚ :=
  let m : ℚ :=
    if total ≤ 0 then 1
    else spec_clamp (1 + k * (1 - spec_clamp (t_remaining / total) 0 1)) (1/5) 2
  spec_clamp (base_p * m) 0 1

/-- `ThompsonBeta` agent state: per-arm Beta parameters. -/
structure ThompsonBeta where
  alpha : List ℚ
  beta : List ℚ
deriving Repr, DecidableEq

/-- `ThompsonBeta.with_k(k)`: `k` arms with uniform `(1.0, 1.0)` prior. -/
def ThompsonBeta.with_k (k : ℕ) (a0 : ℚ := 1) (b0 : ℚ := 1) : ThompsonBeta :=
  ⟨List.replicate k a0, List.replicate k b0⟩

/-- `ThompsonBeta.update(i, success)`: increment `alpha[i]` on success,
`beta[i]` on failure. -/
def ThompsonBeta.update (ag : ThompsonBeta) (i : ℕ) (success : Bool) : ThompsonBeta :=
  if success then { ag with alpha := ag.alpha.set i (ag.alpha.getD i 0 + 1) }
  else { ag with beta := ag.beta.set i (ag.beta.getD i 0 + 1) }

/-- The eligible set of a step: `[i for i, d in enumerate(drops) if d.stock > 0]`. -/
def availableOf (drops : List Drop) : List ℕ :=
  (List.range drops.length).filter (fun i => 0 < (drops.getD i default).stock)

/-- The `for i in available_idx` loop of `sample_index`: `m` counts the
`betavariate` calls made so far (indexing the oracle), `best`/`bestVal`
are the running `best_idx`/`best_val`. -/
def sample_index_aux (betaO : ℕ → ℚ) : ℕ → Option ℕ → ℚ → List ℕ → Option ℕ
  | _, best, _, [] => best
  | m, best, bestVal, i :: rest =>
    let val := betaO m
    if bestVal < val then sample_index_aux betaO (m + 1) (some i) val rest
    else sample_index_aux betaO (m + 1) best bestVal rest

/-- `ThompsonBeta.sample_index(available_idx)` from the source: one
`betavariate` sample per eligible index (abstracted as the oracle value
`betaO m` for the `m`-th sample of this call), returning the index whose
sample is the first strict maximum; starts from `(None, -1)`. -/
def sample_index (betaO : ℕ → ℚ) (availableIdx : List ℕ) : Option ℕ :=
  sample_index_aux betaO 0 none (-1) availableIdx

/-- Run-scoped mutable state of `simulate_run`: the drop list (mutated in
place in the source), the optional Thompson agent, and the counters. -/
structure SimState where
  drops : List Drop
  agent : Option ThompsonBeta
  views : ℤ
  tokens : ℤ
  redemptions : ℤ
deriving Repr, DecidableEq

/-- The policy branch of the loop body: `"random"` indexes the eligible
list with a `randrange(len(available))` draw (oracle value reduced mod the
bound, as only values below the bound occur in the source), `"thompson"`
asks `sample_index`, anything else raises `ValueError("Unknown policy")`. -/
def chooseIdx (policy : String) (pick : ℕ → ℕ) (betaO : ℕ → ℕ → ℚ)
    (j : ℕ) (available : List ℕ) : Except String ℕ :=
  if policy = "random" then
    .ok (available.getD (pick j % available.length) 0)
  else if policy = "thompson" then
    match sample_index (betaO j) available with
    | some i => .ok i
    | none => .error "TypeError: list indices must be integers"
  else
    .error "Unknown policy"

/-- The `if policy == "thompson": agent.update(i, success)` feedback of
the loop body: the agent state is touched only under the thompson policy. -/
def agentObserve (policy : String) (agent : Option ThompsonBeta) (i : ℕ)
    (success : Bool) : Option ThompsonBeta :=
  if policy = "thompson" then agent.map (fun ag => ag.update i success)
  else agent

/-- One iteration of the `for t in arrivals` loop of `simulate_run`
(snappx_trl3_run1.py lines 62-85).  `jt = (j, t)`: `j` is the position of
the arrival in the arrival list (used to index the oracles), `t` its time. -/
def step (policy : String) (pick : ℕ → ℕ) (betaO : ℕ → ℕ → ℚ) (bern : ℕ → ℚ)
    (s : SimState) (jt : ℕ × ℤ) : Except String SimState :=
  let available := availableOf s.drops
  if available.isEmpty then .ok s
  else
    match chooseIdx policy pick betaO jt.1 available with
    | .error e => .error e
    | .ok i =>
      let d := s.drops.getD i default
      let views := s.views + 1
      let t_remaining := max 0 (d.duration_s - jt.2)
      let p_obs := observed_conversion d.base_p t_remaining d.duration_s
      if bern jt.1 < p_obs then
        .ok { drops := s.drops.set i
                { d with stock := d.stock - 1, sold := d.sold + 1,
                         redemptions := d.redemptions + 1 },
              agent := agentObserve policy s.agent i true,
              views := views, tokens := s.tokens + 1,
              redemptions := s.redemptions + 1 }
      else
        .ok { s with
              agent := agentObserve policy s.agent i false,
              views := views }

/-- The whole arrival loop: fold `step` over the indexed arrival list,
short-circuiting on the first raised exception. -/
def runLoop (policy : String) (pick : ℕ → ℕ) (betaO : ℕ → ℕ → ℚ) (bern : ℕ → ℚ) :
    SimState → List (ℕ × ℤ) → Except String SimState
  | s, [] => .ok s
  | s, jt :: ts =>
    match step policy pick betaO bern s jt with
    | .ok s2 => runLoop policy pick betaO bern s2 ts
    | .error e => .error e

/-- Insert into a sorted list of integers, keeping ascending order. -/
def insertSorted (x : ℤ) : List ℤ → List ℤ
  | [] => [x]
  | y :: ys => if x ≤ y then x :: y :: ys else y :: insertSorted x ys

/-- Ascending insertion sort.  On integers this returns exactly the list
Python's `sorted` returns (the ascending reordering of a list of ints is
unique as a sequence, so the sorting algorithm is immaterial). -/
def pySorted (l : List ℤ) : List ℤ := l.foldr insertSorted []

/-- `arrivals = sorted([random.randrange(horizon_s) for _ in range(users)])`.
`range(users)` is empty for `users ≤ 0` (no randrange call); otherwise the
first `randrange(horizon_s)` call raises `ValueError` when `horizon_s ≤ 0`.
The oracle value is reduced mod the bound so that exactly the values
`0 ≤ v < horizon_s` occur, as in the source. -/
def genArrivals (arrO : ℕ → ℕ) (users horizon_s : ℤ) : Except String (List ℤ) :=
  if users ≤ 0 then .ok []
  else if horizon_s ≤ 0 then .error "empty range for randrange()"
  else .ok (pySorted ((List.range users.toNat).map
      (fun u => ((arrO u % horizon_s.toNat : ℕ) : ℤ))))

/-- The KPI dictionary returned by `simulate_run`. -/
structure RunMetrics where
  views : ℤ
  tokens : ℤ
  redemptions : ℤ
  CTR : ℚ
  conversion_given_token : ℚ
  utilization_stock : ℚ
deriving Repr, DecidableEq

/-- Final metric computation of `simulate_run` (lines 87-91):
`ctr = tokens/views if views else 0.0`,
`conv = redemptions/tokens if tokens else 0.0`,
`util = sum(sold) / max(1, sum(stock + sold))`. -/
def computeMetrics (drops : List Drop) (views tokens redemptions : ℤ) : RunMetrics :=
  { views := views, tokens := tokens, redemptions := redemptions,
    CTR := if views ≠ 0 then (tokens : ℚ) / (views : ℚ) else 0,
    conversion_given_token :=
      if tokens ≠ 0 then (redemptions : ℚ) / (tokens : ℚ) else 0,
    utilization_stock :=
      ((drops.map (·.sold)).sum : ℚ) /
        ((max 1 ((drops.map (fun d => d.stock + d.sold)).sum) : ℤ) : ℚ) }

/-- `simulate_run(drops, users, horizon_s, policy, seed)` from the source.
The seed is abstracted into the four oracles (see module docstring); the
returned pair is (KPI dict, final state of the caller's drop list). -/
def simulate_run (pick : ℕ → ℕ) (betaO : ℕ → ℕ → ℚ) (bern : ℕ → ℚ) (arrO : ℕ → ℕ)
    (drops : List Drop) (users : ℤ := 500) (horizon_s : ℤ := 900)
    (policy : String := "random") : Except String (RunMetrics × List Drop) :=
  let agent : Option ThompsonBeta :=
    if policy = "thompson" then some (ThompsonBeta.with_k drops.length) else none
  match genArrivals arrO users horizon_s with
  | .error e => .error e
  | .ok arrivals =>
    match runLoop policy pick betaO bern ⟨drops, agent, 0, 0, 0⟩ arrivals.enum with
    | .error e => .error e
    | .ok final =>
      .ok (computeMetrics final.drops final.views final.tokens final.redemptions,
           final.drops)

/-- The fixed base-probability catalog of `make_default_drops`
(snappx_trl3_run1.py line 50). -/
def base_defaults : List ℚ := [6/100, 10/100, 14/100, 8/100, 12/100, 5/100]

/-- `make_default_drops(k, stock=120, duration_s=900)` from the source:
take the first `k` catalog entries, cycling the catalog
(`base_defaults * ceil(k/len)` then `[:k]`) when `k` exceeds its length. -/
def make_default_drops (k : ℤ) (stock : ℤ := 120) (duration_s : ℤ := 900) :
    List Drop :=
  let base_ps : List ℚ :=
    if (base_defaults.length : ℤ) < k then
      ((List.replicate
          ((k.toNat + base_defaults.length - 1) / base_defaults.length)
          base_defaults).flatten).take k.toNat
    else base_defaults.take k.toNat
  (List.range k.toNat).map (fun i =>
    { name := "Drop " ++ toString (i + 1), base_p := base_ps.getD i 0,
      stock := stock, duration_s := duration_s, sold := 0, redemptions := 0 })

/-! ## Helper lemmas -/

lemma getD_set_self {l : List Drop} {i : ℕ} (h : i < l.length) (a : Drop) :
    (l.set i a).getD i default = a := by
  simp [List.getD_eq_getElem?_getD, List.getElem?_set_self h]

lemma getD_set_ne {l : List Drop} {i i2 : ℕ} (h : i ≠ i2) (a : Drop) :
    (l.set i a).getD i2 default = l.getD i2 default := by
  simp [List.getD_eq_getElem?_getD, List.getElem?_set_ne h]

lemma mem_availableOf {drops : List Drop} {i : ℕ} :
    i ∈ availableOf drops ↔ i < drops.length ∧ 0 < (drops.getD i default).stock := by
  simp [availableOf, List.mem_filter, List.mem_range]

lemma sample_index_aux_mem {betaO : ℕ → ℚ} {i : ℕ} :
    ∀ {l : List ℕ} {m : ℕ} {best : Option ℕ} {bestVal : ℚ},
      sample_index_aux betaO m best bestVal l = some i →
      best = some i ∨ i ∈ l := by
  intro l
  induction l with
  | nil => intro m best bestVal h; exact Or.inl h
  | cons hd tl ih =>
    intro m best bestVal h
    simp only [sample_index_aux] at h
    split at h
    · rcases ih h with h1 | h1
      · cases h1
        exact Or.inr (List.mem_cons_self _ _)
      · exact Or.inr (List.mem_cons_of_mem _ h1)
    · rcases ih h with h1 | h1
      · exact Or.inl h1
      · exact Or.inr (List.mem_cons_of_mem _ h1)

lemma sample_index_mem {betaO : ℕ → ℚ} {l : List ℕ} {i : ℕ}
    (h : sample_index betaO l = some i) : i ∈ l := by
  rcases sample_index_aux_mem h with h1 | h1
  · exact absurd h1 (by simp)
  · exact h1

lemma chooseIdx_ok_mem {policy : String} {pick : ℕ → ℕ} {betaO : ℕ → ℕ → ℚ}
    {j i : ℕ} {available : List ℕ} (hne : available ≠ [])
    (h : chooseIdx policy pick betaO j available = .ok i) : i ∈ available := by
  unfold chooseIdx at h
  split at h
  · have hlen : 0 < available.length := List.length_pos.mpr hne
    have hlt : pick j % available.length < available.length := Nat.mod_lt _ hlen
    have : available.getD (pick j % available.length) 0 = i := by
      simpa using h
    rw [← this, List.getD_eq_getElem _ _ hlt]
    exact List.getElem_mem _
  · split at h
    · rename_i heq
      split at h
      · rename_i i' hsi
        cases h
        exact sample_index_mem hsi
      · cases h
    · cases h

/-- Case analysis of one loop iteration that ends without an exception:
either the drop list is untouched (empty eligible set, or Bernoulli
failure) and no token or redemption is counted, or exactly one eligible
drop (positive stock) is updated by `stock -= 1; sold += 1;
redemptions += 1` on a Bernoulli success and one token and one redemption
are counted. -/
lemma step_ok_cases {policy : String} {pick : ℕ → ℕ} {betaO : ℕ → ℕ → ℚ}
    {bern : ℕ → ℚ} {s s2 : SimState} {jt : ℕ × ℤ}
    (h : step policy pick betaO bern s jt = .ok s2) :
    (s2.drops = s.drops ∧ s2.tokens = s.tokens ∧
      s2.redemptions = s.redemptions ∧
      (s2.views = s.views ∨ s2.views = s.views + 1)) ∨
    (∃ i, i < s.drops.length ∧
      0 < (s.drops.getD i default).stock ∧
      bern jt.1 < observed_conversion (s.drops.getD i default).base_p
        ((max 0 ((s.drops.getD i default).duration_s - jt.2) : ℤ) : ℚ)
        (((s.drops.getD i default).duration_s : ℤ) : ℚ) ∧
      s2.drops = s.drops.set i
        { s.drops.getD i default with
          stock := (s.drops.getD i default).stock - 1,
          sold := (s.drops.getD i default).sold + 1,
          redemptions := (s.drops.getD i default).redemptions + 1 } ∧
      s2.views = s.views + 1 ∧ s2.tokens = s.tokens + 1 ∧
      s2.redemptions = s.redemptions + 1) := by
  simp only [step] at h
  split at h
  · cases h
    exact Or.inl ⟨rfl, rfl, rfl, Or.inl rfl⟩
  · rename_i hne
    split at h
    · cases h
    · rename_i i heq
      have hmem : i ∈ availableOf s.drops :=
        chooseIdx_ok_mem (by simpa [List.isEmpty_iff] using hne) heq
      have hbound := mem_availableOf.mp hmem
      split at h
      · rename_i hbern
        injection h with h
        subst h
        exact Or.inr ⟨i, hbound.1, hbound.2, hbern, rfl, rfl, rfl, rfl⟩
      · injection h with h
        subst h
        exact Or.inl ⟨rfl, rfl, rfl, Or.inr rfl⟩

/-- `runLoop` preserves the length of the drop list. -/
lemma runLoop_length {policy : String} {pick : ℕ → ℕ} {betaO : ℕ → ℕ → ℚ}
    {bern : ℕ → ℚ} {ts : List (ℕ × ℤ)} {s s2 : SimState}
    (h : runLoop policy pick betaO bern s ts = .ok s2) :
    s2.drops.length = s.drops.length := by
  induction ts generalizing s with
  | nil =>
    unfold runLoop at h
    cases h
    rfl
  | cons jt ts ih =>
    unfold runLoop at h
    split at h
    · rename_i s1 hstep
      rcases step_ok_cases hstep with ⟨hd, _⟩ | ⟨i, _, _, _, hd, _⟩
      · rw [ih h, hd]
      · rw [ih h, hd, List.length_set]
    · cases h

/-- `runLoop` keeps every drop's stock non-negative. -/
lemma runLoop_stock_nonneg {policy : String} {pick : ℕ → ℕ} {betaO : ℕ → ℕ → ℚ}
    {bern : ℕ → ℚ} {ts : List (ℕ × ℤ)} {s s2 : SimState}
    (h0 : ∀ i, 0 ≤ (s.drops.getD i default).stock)
    (h : runLoop policy pick betaO bern s ts = .ok s2) :
    ∀ i, 0 ≤ (s2.drops.getD i default).stock := by
  induction ts generalizing s with
  | nil =>
    unfold runLoop at h
    cases h
    exact h0
  | cons jt ts ih =>
    unfold runLoop at h
    split at h
    · rename_i s1 hstep
      refine ih ?_ h
      rcases step_ok_cases hstep with ⟨hd, _⟩ | ⟨i, hlen, hpos, _, hd, _⟩
      · rw [hd]; exact h0
      · intro i2
        rw [hd]
        by_cases hii : i = i2
        · subst hii
          rw [getD_set_self hlen]
          simp only
          omega
        · rw [getD_set_ne hii]
          exact h0 i2
    · cases h

/-- `runLoop` preserves `sold + stock` of every drop (conservation). -/
lemma runLoop_conservation {policy : String} {pick : ℕ → ℕ} {betaO : ℕ → ℕ → ℚ}
    {bern : ℕ → ℚ} {ts : List (ℕ × ℤ)} {s s2 : SimState}
    (h : runLoop policy pick betaO bern s ts = .ok s2) :
    ∀ i, (s2.drops.getD i default).sold + (s2.drops.getD i default).stock =
      (s.drops.getD i default).sold + (s.drops.getD i default).stock := by
  induction ts generalizing s with
  | nil =>
    unfold runLoop at h
    cases h
    exact fun _ => rfl
  | cons jt ts ih =>
    unfold runLoop at h
    split at h
    · rename_i s1 hstep
      intro i2
      rw [ih h i2]
      rcases step_ok_cases hstep with ⟨hd, _⟩ | ⟨i, hlen, hpos, _, hd, _⟩
      · rw [hd]
      · rw [hd]
        by_cases hii : i = i2
        · subst hii
          rw [getD_set_self hlen]
          simp only
          omega
        · rw [getD_set_ne hii]
    · cases h

/-- `runLoop` keeps `0 ≤ tokens ≤ views` and `redemptions = tokens`. -/
lemma runLoop_counters {policy : String} {pick : ℕ → ℕ} {betaO : ℕ → ℕ → ℚ}
    {bern : ℕ → ℚ} {ts : List (ℕ × ℤ)} {s s2 : SimState}
    (h0 : 0 ≤ s.tokens ∧ s.tokens ≤ s.views ∧ s.redemptions = s.tokens)
    (h : runLoop policy pick betaO bern s ts = .ok s2) :
    0 ≤ s2.tokens ∧ s2.tokens ≤ s2.views ∧ s2.redemptions = s2.tokens := by
  induction ts generalizing s with
  | nil =>
    unfold runLoop at h
    cases h
    exact h0
  | cons jt ts ih =>
    unfold runLoop at h
    split at h
    · rename_i s1 hstep
      refine ih ?_ h
      rcases step_ok_cases hstep with ⟨hd, ht, hr, hv | hv⟩ |
        ⟨i, _, _, _, _, hv, ht, hr⟩ <;> omega
    · cases h

/-- The urgency multiplier never exceeds the upper clamp `2.0`. -/
lemma urgency_le_two (t total : ℚ) : urgency_multiplier t total ≤ 2 := by
  unfold urgency_multiplier
  split
  · norm_num
  · exact max_le (by norm_num) (min_le_left _ _)

/-- The urgency multiplier is antitone in the remaining time. -/
lemma urgency_antitone (total : ℚ) {t1 t2 : ℚ} (h : t1 ≤ t2) :
    urgency_multiplier t2 total ≤ urgency_multiplier t1 total := by
  unfold urgency_multiplier
  split
  · exact le_refl _
  · rename_i htot
    have htot' : 0 < total := lt_of_not_le htot
    have hdiv : t1 / total ≤ t2 / total := by gcongr
    have hx : max 0 (min 1 (t1 / total)) ≤ max 0 (min 1 (t2 / total)) :=
      max_le_max (le_refl 0) (min_le_min (le_refl 1) hdiv)
    refine max_le_max (le_refl _) (min_le_min (le_refl 2) ?_)
    nlinarith [hx]

/-- The observed conversion probability is clamped below by `0`. -/
lemma observed_nonneg (p t total : ℚ) : 0 ≤ observed_conversion p t total :=
  le_max_left _ _

/-- The observed conversion probability is clamped above by `1`. -/
lemma observed_le_one (p t total : ℚ) : observed_conversion p t total ≤ 1 :=
  max_le (by norm_num) (min_le_left _ _)

/-- C3: for every `base_p`, `t_remaining` and `total`, `observed_conversion`
returns exactly the spec's formula `clamp(base_p * m, 0, 1)` with
`m = clamp(1 + k*(1 - clamp(t_remaining/total, 0, 1)), 0.2, 2.0)` and
`k = 1.25`; when `total ≤ 0` the urgency multiplier is exactly `1.0`; and
the result always lies in `[0, 1]`. -/
theorem C3_conversion_model (base_p t_remaining total : ℚ) :
    observed_conversion base_p t_remaining total
      = spec_effective_p base_p t_remaining total (5/4) ∧
    (total ≤ 0 → urgency_multiplier t_remaining total = 1) ∧
    0 ≤ observed_conversion base_p t_remaining total ∧
    observed_conversion base_p t_remaining total ≤ 1 := by
  refine ⟨?_, ?_, observed_nonneg _ _ _, observed_le_one _ _ _⟩
  · simp only [observed_conversion, spec_effective_p, spec_clamp,
      urgency_multiplier]
  · intro h
    unfold urgency_multiplier
    rw [if_pos h]

/-- Witness for C3 at `base_p = 1/2`, `t_remaining = 3`, `total = -1`,
also discharging the `total ≤ 0` hypothesis of the multiplier clause. -/
theorem C3_witness :
    (observed_conversion (1/2) 3 (-1) = spec_effective_p (1/2) 3 (-1) (5/4) ∧
     ((-1 : ℚ) ≤ 0 → urgency_multiplier 3 (-1) = 1) ∧
     0 ≤ observed_conversion (1/2) 3 (-1) ∧
     observed_conversion (1/2) 3 (-1) ≤ 1) ∧
    urgency_multiplier 3 (-1) = 1 :=
  ⟨C3_conversion_model (1/2) 3 (-1),
   (C3_conversion_model (1/2) 3 (-1)).2.1 (by norm_num)⟩

/-- C4: for fixed `base_p` in the contract domain `[0,1]` and fixed
`total`, the effective probability is non-increasing as `t_remaining`
increases, and it always lies in `[0, base_p * 2.0]` intersected with
`[0, 1]`. -/
theorem C4_urgency_monotone (base_p total t1 t2 : ℚ)
    (hp0 : 0 ≤ base_p) (hp1 : base_p ≤ 1) (h12 : t1 ≤ t2) :
    observed_conversion base_p t2 total ≤ observed_conversion base_p t1 total ∧
    ∀ t : ℚ, 0 ≤ observed_conversion base_p t total ∧
      observed_conversion base_p t total ≤ 2 * base_p ∧
      observed_conversion base_p t total ≤ 1 := by
  constructor
  · have hu : urgency_multiplier t2 total ≤ urgency_multiplier t1 total :=
      urgency_antitone total h12
    have hmul : base_p * urgency_multiplier t2 total ≤
        base_p * urgency_multiplier t1 total :=
      mul_le_mul_of_nonneg_left hu hp0
    exact max_le_max (le_refl 0) (min_le_min (le_refl 1) hmul)
  · intro t
    refine ⟨observed_nonneg _ _ _, ?_, observed_le_one _ _ _⟩
    have h2 : base_p * urgency_multiplier t total ≤ 2 * base_p := by
      have := mul_le_mul_of_nonneg_left (urgency_le_two t total) hp0
      linarith
    calc observed_conversion base_p t total
        ≤ max 0 (base_p * urgency_multiplier t total) :=
          max_le_max (le_refl 0) (min_le_right _ _)
      _ ≤ max 0 (2 * base_p) := max_le_max (le_refl 0) h2
      _ = 2 * base_p := max_eq_right (by linarith)

/-- Witness for C4 at `base_p = 1/2`, `total = 10`, `t1 = 3`, `t2 = 7`. -/
theorem C4_witness :
    observed_conversion (1/2) 7 10 ≤ observed_conversion (1/2) 3 10 ∧
    ∀ t : ℚ, 0 ≤ observed_conversion (1/2) t 10 ∧
      observed_conversion (1/2) t 10 ≤ 2 * (1/2) ∧
      observed_conversion (1/2) t 10 ≤ 1 :=
  C4_urgency_monotone (1/2) 10 3 7 (by norm_num) (by norm_num) (by norm_num)

lemma default_drop_stock : (default : Drop).stock = 0 := rfl

lemma default_drop_sold : (default : Drop).sold = 0 := rfl

lemma stock_nonneg_indexed {l : List Drop} (h : ∀ d ∈ l, 0 ≤ d.stock) :
    ∀ i, 0 ≤ (l.getD i default).stock := by
  intro i
  by_cases hi : i < l.length
  · rw [List.getD_eq_getElem _ _ hi]
    exact h _ (List.getElem_mem hi)
  · rw [List.getD_eq_default _ _ (le_of_not_lt hi), default_drop_stock]

lemma indexed_stock_nonneg {l : List Drop}
    (h : ∀ i, 0 ≤ (l.getD i default).stock) : ∀ d ∈ l, 0 ≤ d.stock := by
  intro d hd
  rcases List.getElem_of_mem hd with ⟨i, hi, hget⟩
  have := h i
  rwa [List.getD_eq_getElem _ _ hi, hget] at this

/-- Unpacking of a successful `simulate_run` into its three stages. -/
lemma simulate_run_ok_elim {pick : ℕ → ℕ} {betaO : ℕ → ℕ → ℚ} {bern : ℕ → ℚ}
    {arrO : ℕ → ℕ} {drops : List Drop} {users horizon_s : ℤ} {policy : String}
    {m : RunMetrics} {drops2 : List Drop}
    (h : simulate_run pick betaO bern arrO drops users horizon_s policy
      = .ok (m, drops2)) :
    ∃ arrivals final,
      genArrivals arrO users horizon_s = .ok arrivals ∧
      runLoop policy pick betaO bern
        ⟨drops, (if policy = "thompson" then
          some (ThompsonBeta.with_k drops.length) else none), 0, 0, 0⟩
        arrivals.enum = .ok final ∧
      m = computeMetrics final.drops final.views final.tokens
        final.redemptions ∧
      drops2 = final.drops := by
  simp only [simulate_run] at h
  split at h
  · cases h
  · rename_i arrivals harr
    split at h
    · cases h
    · rename_i final hloop
      injection h with h
      rw [Prod.mk.injEq] at h
      exact ⟨arrivals, final, harr, hloop, h.1.symm, h.2.symm⟩

/-- C1: in every successful run over drops whose sold counters start at 0
(and stocks start non-negative), every intermediate state of the arrival
loop keeps all stocks non-negative, and at run end each drop satisfies
`sold + stock = initial stock` (units only move in conversion events, in
which stock and sold change by `-1`/`+1` together). -/
theorem C1_stock_conservation (pick : ℕ → ℕ) (betaO : ℕ → ℕ → ℚ)
    (bern : ℕ → ℚ) (arrO : ℕ → ℕ) (drops : List Drop) (users horizon_s : ℤ)
    (policy : String) (m : RunMetrics) (drops2 : List Drop)
    (hstock : ∀ d ∈ drops, 0 ≤ d.stock) (hsold : ∀ d ∈ drops, d.sold = 0)
    (hrun : simulate_run pick betaO bern arrO drops users horizon_s policy
      = .ok (m, drops2)) :
    (∀ d ∈ drops2, 0 ≤ d.stock) ∧
    drops2.length = drops.length ∧
    (∀ i, (drops2.getD i default).sold + (drops2.getD i default).stock =
      (drops.getD i default).stock) ∧
    (∀ ts s2, runLoop policy pick betaO bern
        ⟨drops, (if policy = "thompson" then
          some (ThompsonBeta.with_k drops.length) else none), 0, 0, 0⟩
        ts = .ok s2 → ∀ d ∈ s2.drops, 0 ≤ d.stock) := by
  rcases simulate_run_ok_elim hrun with ⟨arrivals, final, harr, hloop, hm, hd2⟩
  have hinit : ∀ i, 0 ≤ ((⟨drops, (if policy = "thompson" then
      some (ThompsonBeta.with_k drops.length) else none), 0, 0, 0⟩ :
      SimState).drops.getD i default).stock :=
    stock_nonneg_indexed hstock
  have hsold0 : ∀ i, (drops.getD i default).sold = 0 := by
    intro i
    by_cases hi : i < drops.length
    · rw [List.getD_eq_getElem _ _ hi]
      exact hsold _ (List.getElem_mem hi)
    · rw [List.getD_eq_default _ _ (le_of_not_lt hi), default_drop_sold]
  refine ⟨?_, ?_, ?_, ?_⟩
  · subst hd2
    exact indexed_stock_nonneg (runLoop_stock_nonneg hinit hloop)
  · subst hd2
    exact runLoop_length hloop
  · intro i
    subst hd2
    have := runLoop_conservation hloop i
    simp only at this
    rw [this, hsold0 i, zero_add]
  · intro ts s2 hl
    exact indexed_stock_nonneg (runLoop_stock_nonneg hinit hl)

/-- C2: in every successful run the returned counters satisfy
`0 ≤ tokens ≤ views` and `0 ≤ redemptions ≤ tokens`, and under the
single-step redemption policy `redemptions = tokens` exactly. -/
theorem C2_counter_invariants (pick : ℕ → ℕ) (betaO : ℕ → ℕ → ℚ)
    (bern : ℕ → ℚ) (arrO : ℕ → ℕ) (drops : List Drop) (users horizon_s : ℤ)
    (policy : String) (m : RunMetrics) (drops2 : List Drop)
    (hrun : simulate_run pick betaO bern arrO drops users horizon_s policy
      = .ok (m, drops2)) :
    0 ≤ m.tokens ∧ m.tokens ≤ m.views ∧
    0 ≤ m.redemptions ∧ m.redemptions ≤ m.tokens ∧
    m.redemptions = m.tokens := by
  rcases simulate_run_ok_elim hrun with ⟨arrivals, final, harr, hloop, hm, hd2⟩
  have h0 := runLoop_counters (by norm_num) hloop
  subst hm
  simp only [computeMetrics]
  omega

/-! ## Concrete fixtures used by witnesses and counterexamples -/

/-- All-zero integer oracle. -/
def oracleN : ℕ → ℕ := fun _ => 0

/-- All-zero rational oracle (every `random.random()` draw is `0`). -/
def oracleQ : ℕ → ℚ := fun _ => 0

/-- All-zero betavariate oracle. -/
def oracleB : ℕ → ℕ → ℚ := fun _ _ => 0

/-- A small fixture drop: two units of stock, ten seconds of duration. -/
def drop0 : Drop :=
  { name := "Drop 1", base_p := 1/2, stock := 2, duration_s := 10 }

/-- `drop0` after two conversions. -/
def drop0final : Drop :=
  { name := "Drop 1", base_p := 1/2, stock := 0, duration_s := 10,
    sold := 2, redemptions := 2 }

/-- Metrics of the fully evaluated two-user run on `drop0`. -/
def metrics0 : RunMetrics :=
  { views := 2, tokens := 2, redemptions := 2, CTR := 1,
    conversion_given_token := 1, utilization_stock := 1 }

/-- A fully evaluated two-user run on `drop0`: both arrivals convert. -/
lemma run_eval_two_users :
    simulate_run oracleN oracleB oracleQ oracleN [drop0] 2 5 "random" =
      .ok (metrics0, [drop0final]) := by
  have ht : Int.toNat 2 = 2 := rfl
  have hr2 : List.range 2 = [0, 1] := by decide
  have hr1 : List.range 1 = [0] := by decide
  norm_num [simulate_run, genArrivals, pySorted, insertSorted, runLoop, step,
    chooseIdx, availableOf, agentObserve, observed_conversion,
    urgency_multiplier, computeMetrics, oracleN, oracleB, oracleQ, drop0,
    drop0final, metrics0, List.getD, ht, hr2, hr1, List.enum, List.enumFrom,
    List.filter]

/-! ## Further helper lemmas for the error-path claims -/

lemma length_insertSorted (x : ℤ) (l : List ℤ) :
    (insertSorted x l).length = l.length + 1 := by
  induction l with
  | nil => rfl
  | cons y ys ih =>
    unfold insertSorted
    split
    · rfl
    · simp [ih]

lemma pySorted_length (l : List ℤ) : (pySorted l).length = l.length := by
  induction l with
  | nil => rfl
  | cons x xs ih =>
    show (insertSorted x (pySorted xs)).length = xs.length + 1
    rw [length_insertSorted, ih]

lemma availableOf_eq_nil {drops : List Drop}
    (h : ∀ d ∈ drops, d.stock ≤ 0) : availableOf drops = [] := by
  refine List.eq_nil_iff_forall_not_mem.mpr fun i hi => ?_
  rcases mem_availableOf.mp hi with ⟨hlen, hpos⟩
  have hmem : drops.getD i default ∈ drops := by
    rw [List.getD_eq_getElem _ _ hlen]
    exact List.getElem_mem hlen
  exact absurd hpos (not_lt.mpr (h _ hmem))

lemma runLoop_stuck {policy : String} {pick : ℕ → ℕ} {betaO : ℕ → ℕ → ℚ}
    {bern : ℕ → ℚ} {s : SimState} (h : availableOf s.drops = []) :
    ∀ ts, runLoop policy pick betaO bern s ts = .ok s := by
  intro ts
  induction ts with
  | nil => rfl
  | cons jt ts ih =>
    have hstep : step policy pick betaO bern s jt = .ok s := by
      simp [step, h]
    simp only [runLoop, hstep]
    exact ih

lemma flatten_replicate_getD (L : List ℚ) (m i : ℕ) (hi : i < m * L.length) :
    ((List.replicate m L).flatten).getD i 0 = L.getD (i % L.length) 0 := by
  induction m generalizing i with
  | zero => omega
  | succ m ih =>
    rw [List.replicate_succ, List.flatten_cons]
    by_cases hiL : i < L.length
    · rw [List.getD_append _ _ _ _ hiL, Nat.mod_eq_of_lt hiL]
    · have h6 : L.length ≤ i := le_of_not_lt hiL
      rw [List.getD_append_right _ _ _ _ h6]
      have hlt : i - L.length < m * L.length := by
        have := hi
        rw [Nat.succ_mul] at this
        omega
      rw [ih _ hlt, ← Nat.mod_eq_sub_mod h6]

/-- Witness for C1: the two-user run on `drop0` (initial stock 2, sold 0)
ends with `sold + stock = 2` for the single drop. -/
theorem C1_witness :
    (([drop0final] : List Drop).getD 0 default).sold +
        (([drop0final] : List Drop).getD 0 default).stock =
      (([drop0] : List Drop).getD 0 default).stock ∧
    ([drop0final] : List Drop).length = ([drop0] : List Drop).length :=
  ⟨(C1_stock_conservation oracleN oracleB oracleQ oracleN [drop0] 2 5 "random"
    metrics0 [drop0final]
    (by intro d hd; rw [List.mem_singleton] at hd; subst hd; norm_num [drop0])
    (by intro d hd; rw [List.mem_singleton] at hd; subst hd; norm_num [drop0])
    run_eval_two_users).2.2.1 0,
   (C1_stock_conservation oracleN oracleB oracleQ oracleN [drop0] 2 5 "random"
    metrics0 [drop0final]
    (by intro d hd; rw [List.mem_singleton] at hd; subst hd; norm_num [drop0])
    (by intro d hd; rw [List.mem_singleton] at hd; subst hd; norm_num [drop0])
    run_eval_two_users).2.1⟩

/-- Witness for C2: the two-user run on `drop0` returns
`views = tokens = redemptions = 2`, satisfying all counter invariants. -/
theorem C2_witness :
    0 ≤ metrics0.tokens ∧ metrics0.tokens ≤ metrics0.views ∧
    0 ≤ metrics0.redemptions ∧ metrics0.redemptions ≤ metrics0.tokens ∧
    metrics0.redemptions = metrics0.tokens :=
  C2_counter_invariants oracleN oracleB oracleQ oracleN [drop0] 2 5 "random"
    metrics0 [drop0final] run_eval_two_users

/-- C5 counterexample: with `users = 5 > 0` and `horizon_s = 0`, the run
does NOT terminate with zero metrics — arrival generation raises the
`randrange` ValueError, contradicting the claim that any configuration
with `horizon_s = 0` terminates without raising a fault. -/
theorem C5_counterexample :
    simulate_run oracleN oracleB oracleQ oracleN [drop0] 5 0 "random" =
    .error "empty range for randrange()" := by
  norm_num [simulate_run, genArrivals]

/-- C5 amended: a run with `users ≤ 0` (and sold counters starting at 0)
terminates immediately with `views = tokens = redemptions = 0` and all
three ratios `0.0`, and no fault is raised; but when `0 < users` and
`horizon_s ≤ 0` the run instead raises the `randrange` ValueError. -/
theorem C5_zero_denominator (pick : ℕ → ℕ) (betaO : ℕ → ℕ → ℚ)
    (bern : ℕ → ℚ) (arrO : ℕ → ℕ) (drops : List Drop)
    (users horizon_s : ℤ) (policy : String)
    (hsold : ∀ d ∈ drops, d.sold = 0) :
    (users ≤ 0 →
      simulate_run pick betaO bern arrO drops users horizon_s policy =
        .ok ({ views := 0, tokens := 0, redemptions := 0, CTR := 0,
               conversion_given_token := 0, utilization_stock := 0 },
             drops)) ∧
    (0 < users → horizon_s ≤ 0 →
      simulate_run pick betaO bern arrO drops users horizon_s policy =
        .error "empty range for randrange()") := by
  constructor
  · intro hu
    have hsum : (drops.map (·.sold)).sum = 0 := by
      refine List.sum_eq_zero fun x hx => ?_
      rcases List.mem_map.mp hx with ⟨d, hd, hdx⟩
      rw [← hdx, hsold d hd]
    have hsumQ : (List.map (fun x => ((Drop.sold x : ℤ) : ℚ)) drops).sum = 0 := by
      refine List.sum_eq_zero fun x hx => ?_
      rcases List.mem_map.mp hx with ⟨d, hd, hdx⟩
      rw [← hdx, hsold d hd]
      norm_num
    simp only [simulate_run, genArrivals, if_pos hu, List.enum_nil, runLoop,
      computeMetrics]
    norm_num [hsum]
    exact Or.inl hsumQ
  · intro hu hh
    simp only [simulate_run, genArrivals, if_neg (not_le.mpr hu), if_pos hh]

/-- Witness for the amended C5: a `users = 0` run on `drop0` returns the
all-zero metrics without touching the drop, while `users = 5` with
`horizon_s = 0` raises. -/
theorem C5_witness :
    simulate_run oracleN oracleB oracleQ oracleN [drop0] 0 900 "random" =
      .ok ({ views := 0, tokens := 0, redemptions := 0, CTR := 0,
             conversion_given_token := 0, utilization_stock := 0 },
           [drop0]) ∧
    simulate_run oracleN oracleB oracleQ oracleN [drop0] 5 0 "thompson" =
      .error "empty range for randrange()" :=
  ⟨(C5_zero_denominator oracleN oracleB oracleQ oracleN [drop0] 0 900 "random"
      (by intro d hd; rw [List.mem_singleton] at hd; subst hd;
          norm_num [drop0])).1 (le_refl 0),
   (C5_zero_denominator oracleN oracleB oracleQ oracleN [drop0] 5 0 "thompson"
      (by intro d hd; rw [List.mem_singleton] at hd; subst hd;
          norm_num [drop0])).2 (by norm_num) (le_refl 0)⟩

/-- C6 counterexample: the unknown policy `"greedy"` does NOT fail
regardless of the other arguments — with `users = 0` the run completes and
returns metrics, so no error is surfaced and metrics ARE returned. -/
theorem C6_counterexample :
    simulate_run oracleN oracleB oracleQ oracleN [drop0] 0 900 "greedy" =
      .ok ({ views := 0, tokens := 0, redemptions := 0, CTR := 0,
             conversion_given_token := 0, utilization_stock := 0 },
           [drop0]) := by
  norm_num [simulate_run, genArrivals, runLoop, computeMetrics, drop0]

/-- C6 amended: an unrecognized policy identifier raises
`ValueError("Unknown policy")` (and no metrics are returned) as soon as an
arrival is processed with a non-empty eligible set — in particular
whenever `0 < users`, `0 < horizon_s` and some drop has positive stock;
but if no arrival is ever processed with an eligible drop (`users ≤ 0`,
or every stock non-positive), the policy string is never inspected and the
run returns metrics normally. -/
theorem C6_unknown_policy (pick : ℕ → ℕ) (betaO : ℕ → ℕ → ℚ)
    (bern : ℕ → ℚ) (arrO : ℕ → ℕ) (drops : List Drop)
    (users horizon_s : ℤ) (policy : String)
    (hp1 : policy ≠ "random") (hp2 : policy ≠ "thompson") :
    (0 < users → 0 < horizon_s → (∃ d ∈ drops, 0 < d.stock) →
      simulate_run pick betaO bern arrO drops users horizon_s policy =
        .error "Unknown policy") ∧
    (users ≤ 0 ∨ (0 < horizon_s ∧ ∀ d ∈ drops, d.stock ≤ 0) →
      ∃ m, simulate_run pick betaO bern arrO drops users horizon_s policy =
        .ok (m, drops)) := by
  constructor
  · intro hu hh hex
    have hne : availableOf drops ≠ [] := by
      rcases hex with ⟨d, hd, hdpos⟩
      rcases List.getElem_of_mem hd with ⟨i, hi, hget⟩
      refine List.ne_nil_of_mem (mem_availableOf.mpr ⟨hi, ?_⟩)
      rw [List.getD_eq_getElem _ _ hi, hget]
      exact hdpos
    obtain ⟨t0, ts, heq⟩ : ∃ t0 ts,
        pySorted ((List.range users.toNat).map
          (fun u => ((arrO u % horizon_s.toNat : ℕ) : ℤ))) = t0 :: ts := by
      have hlen : (pySorted ((List.range users.toNat).map
          (fun u => ((arrO u % horizon_s.toNat : ℕ) : ℤ)))).length =
          users.toNat := by
        rw [pySorted_length, List.length_map, List.length_range]
      rcases hcase : pySorted ((List.range users.toNat).map
          (fun u => ((arrO u % horizon_s.toNat : ℕ) : ℤ))) with _ | ⟨a, as⟩
      · rw [hcase] at hlen
        simp at hlen
        omega
      · exact ⟨a, as, rfl⟩
    have hstep : step policy pick betaO bern
        ⟨drops, (if policy = "thompson" then
          some (ThompsonBeta.with_k drops.length) else none), 0, 0, 0⟩
        (0, t0) = .error "Unknown policy" := by
      simp [step, List.isEmpty_iff, hne, chooseIdx, hp1, hp2]
    simp only [simulate_run, genArrivals, if_neg (not_le.mpr hu),
      if_neg (not_le.mpr hh), heq, List.enum_cons, runLoop, hstep]
  · intro hcase
    by_cases hu : users ≤ 0
    · refine ⟨computeMetrics drops 0 0 0, ?_⟩
      simp only [simulate_run, genArrivals, if_pos hu, List.enum_nil, runLoop]
    · rcases hcase with hu2 | ⟨hh, hstocks⟩
      · exact absurd hu2 hu
      · have hav : availableOf drops = [] := availableOf_eq_nil hstocks
        refine ⟨computeMetrics drops 0 0 0, ?_⟩
        simp only [simulate_run, genArrivals, if_neg hu,
          if_neg (not_le.mpr hh)]
        rw [runLoop_stuck hav]

/-- Witness for the amended C6: policy `"greedy"` on a stocked drop with
two users raises `Unknown policy`; with `users = 0` it instead returns
metrics. -/
theorem C6_witness :
    simulate_run oracleN oracleB oracleQ oracleN [drop0] 2 5 "greedy" =
      .error "Unknown policy" ∧
    (∃ m, simulate_run oracleN oracleB oracleQ oracleN [drop0] 0 5 "greedy" =
      .ok (m, [drop0])) :=
  ⟨(C6_unknown_policy oracleN oracleB oracleQ oracleN [drop0] 2 5 "greedy"
      (by decide) (by decide)).1 (by norm_num) (by norm_num)
      ⟨drop0, List.mem_singleton.mpr rfl, by norm_num [drop0]⟩,
   (C6_unknown_policy oracleN oracleB oracleQ oracleN [drop0] 0 5 "greedy"
      (by decide) (by decide)).2 (Or.inl (le_refl 0))⟩

/-- C7 counterexample: `users = -3` (non-positive) does NOT fail with any
configuration error — the run completes normally and returns the
zero-denominator metrics, so no `InvalidConfiguration` is surfaced. -/
theorem C7_counterexample :
    simulate_run oracleN oracleB oracleQ oracleN [drop0] (-3) 900 "random" =
      .ok ({ views := 0, tokens := 0, redemptions := 0, CTR := 0,
             conversion_given_token := 0, utilization_stock := 0 },
           [drop0]) := by
  norm_num [simulate_run, genArrivals, runLoop, computeMetrics, drop0]

/-- C7 amended: the engine performs no configuration validation at all.
Non-positive `users` yields a normal run that processes no arrival and
returns metrics; non-positive `horizon_s` together with positive `users`
raises the `randrange` ValueError (not a dedicated configuration error);
non-positive `k` merely makes `make_default_drops` return an empty drop
list. -/
theorem C7_no_validation (pick : ℕ → ℕ) (betaO : ℕ → ℕ → ℚ)
    (bern : ℕ → ℚ) (arrO : ℕ → ℕ) (drops : List Drop)
    (users horizon_s : ℤ) (policy : String) :
    (users ≤ 0 →
      simulate_run pick betaO bern arrO drops users horizon_s policy =
        .ok (computeMetrics drops 0 0 0, drops)) ∧
    (0 < users → horizon_s ≤ 0 →
      simulate_run pick betaO bern arrO drops users horizon_s policy =
        .error "empty range for randrange()") ∧
    (∀ k stock dur : ℤ, k ≤ 0 → make_default_drops k stock dur = []) := by
  refine ⟨?_, ?_, ?_⟩
  · intro hu
    simp only [simulate_run, genArrivals, if_pos hu, List.enum_nil, runLoop]
  · intro hu hh
    simp only [simulate_run, genArrivals, if_neg (not_le.mpr hu), if_pos hh]
  · intro k stock dur hk
    have : k.toNat = 0 := by omega
    simp [make_default_drops, this]

/-- Witness for the amended C7: `users = -3` returns metrics normally,
`users = 5` with `horizon_s = -1` raises, and `make_default_drops 0` is
empty. -/
theorem C7_witness :
    simulate_run oracleN oracleB oracleQ oracleN [drop0] (-3) 7 "thompson" =
      .ok (computeMetrics [drop0] 0 0 0, [drop0]) ∧
    simulate_run oracleN oracleB oracleQ oracleN [drop0] 5 (-1) "random" =
      .error "empty range for randrange()" ∧
    make_default_drops 0 120 900 = [] :=
  ⟨(C7_no_validation oracleN oracleB oracleQ oracleN [drop0] (-3) 7
      "thompson").1 (by norm_num),
   (C7_no_validation oracleN oracleB oracleQ oracleN [drop0] 5 (-1)
      "random").2.1 (by norm_num) (by norm_num),
   (C7_no_validation oracleN oracleB oracleQ oracleN [drop0] 5 (-1)
      "random").2.2 0 120 900 (le_refl 0)⟩

/-- C8: for every `k ≥ 1`, `make_default_drops` deterministically returns
`k` drops in order, drop `i` being named `Drop i+1` with the given stock
and duration and with base probability taken from the fixed catalog,
cycling the catalog (`index mod catalog length`) when `k` exceeds its
length; in particular `k = 3, stock = 120, duration_s = 900` yields base
probabilities `0.06, 0.10, 0.14`. -/
theorem C8_default_drops (k stock dur : ℤ) (hk : 1 ≤ k) :
    (make_default_drops k stock dur).length = k.toNat ∧
    (∀ i, i < k.toNat →
      (make_default_drops k stock dur).getD i default =
        { name := "Drop " ++ toString (i + 1),
          base_p := base_defaults.getD (i % base_defaults.length) 0,
          stock := stock, duration_s := dur, sold := 0, redemptions := 0 }) ∧
    (make_default_drops 3 120 900).map (·.base_p) =
      [6/100, 10/100, 14/100] := by
  refine ⟨by simp [make_default_drops], ?_, ?_⟩
  · intro i hi
    have hlen : (make_default_drops k stock dur).length = k.toNat := by
      simp [make_default_drops]
    rw [List.getD_eq_getElem _ _ (by rw [hlen]; exact hi)]
    unfold make_default_drops
    simp only [List.getElem_map, List.getElem_range]
    rw [Drop.mk.injEq]
    refine ⟨rfl, ?_, rfl, rfl, rfl, rfl⟩
    by_cases hk6 : (base_defaults.length : ℤ) < k
    · rw [if_pos hk6]
      rw [List.getD_eq_getElem?_getD, List.getElem?_take_of_lt hi,
        ← List.getD_eq_getElem?_getD]
      refine flatten_replicate_getD base_defaults _ i ?_
      have h6 : base_defaults.length = 6 := rfl
      rw [h6]
      omega
    · rw [if_neg hk6]
      have h6 : base_defaults.length = 6 := rfl
      have hk6' : k.toNat ≤ base_defaults.length := by
        rw [h6]
        omega
      have hi6 : i < base_defaults.length := lt_of_lt_of_le hi hk6'
      rw [List.getD_eq_getElem?_getD, List.getElem?_take_of_lt hi,
        ← List.getD_eq_getElem?_getD, Nat.mod_eq_of_lt hi6]
  · have h3 : Int.toNat 3 = 3 := rfl
    have hr : List.range 3 = [0, 1, 2] := by decide
    norm_num [make_default_drops, base_defaults, h3, hr, List.getD]

/-- Witness for C8 at `k = 3`, `stock = 120`, `duration_s = 900`. -/
theorem C8_witness :
    (make_default_drops 3 120 900).length = Int.toNat 3 ∧
    (∀ i, i < Int.toNat 3 →
      (make_default_drops 3 120 900).getD i default =
        { name := "Drop " ++ toString (i + 1),
          base_p := base_defaults.getD (i % base_defaults.length) 0,
          stock := 120, duration_s := 900, sold := 0, redemptions := 0 }) ∧
    (make_default_drops 3 120 900).map (·.base_p) =
      [6/100, 10/100, 14/100] :=
  C8_default_drops 3 120 900 (by norm_num)

/-- `drop0` after a single conversion. -/
def drop0mid : Drop :=
  { name := "Drop 1", base_p := 1/2, stock := 1, duration_s := 10,
    sold := 1, redemptions := 1 }

/-- C9: eligibility never looks at time.  For an arrival at time
`t ≥ duration_s`, `t_remaining` collapses to `0`; with `0 < total` the
multiplier at `t_remaining = 0` is exactly the upper clamp `2`, the
largest value the multiplier ever takes; and a drop whose nominal duration
has expired is still chosen (its stock is positive) and can still convert,
mutating stock/sold/redemptions. -/
theorem C9_no_time_gating (d : Drop) (t : ℤ) (total r : ℚ) (j : ℕ)
    (v tk rd : ℤ) (pick : ℕ → ℕ) (betaO : ℕ → ℕ → ℚ) (bern : ℕ → ℚ)
    (ht : d.duration_s ≤ t) (htotal : 0 < total) (hstock : 0 < d.stock)
    (hb : bern j < observed_conversion d.base_p 0 (d.duration_s : ℚ)) :
    max 0 (d.duration_s - t) = 0 ∧
    urgency_multiplier 0 total = 2 ∧
    urgency_multiplier r total ≤ 2 ∧
    step "random" pick betaO bern ⟨[d], none, v, tk, rd⟩ (j, t) =
      .ok ⟨[{ d with
               stock := d.stock - 1, sold := d.sold + 1,
               redemptions := d.redemptions + 1 }], none,
           v + 1, tk + 1, rd + 1⟩ := by
  have hmax : max 0 (d.duration_s - t) = 0 := by omega
  refine ⟨hmax, ?_, urgency_le_two r total, ?_⟩
  · unfold urgency_multiplier
    rw [if_neg (not_le.mpr htotal)]
    norm_num [zero_div]
  · have hr1 : List.range 1 = [0] := by decide
    have havail : availableOf [d] = [0] := by
      simp [availableOf, hr1, List.filter, hstock, List.getD]
    norm_num [step, havail, chooseIdx, List.getD, hmax, agentObserve, hb]

/-- Witness for C9: an arrival at `t = 15` on `drop0` (duration 10)
still sees the drop, gets the maximal multiplier, and converts. -/
theorem C9_witness :
    max 0 (drop0.duration_s - 15) = 0 ∧
    urgency_multiplier 0 10 = 2 ∧
    urgency_multiplier 3 10 ≤ 2 ∧
    step "random" oracleN oracleB oracleQ ⟨[drop0], none, 0, 0, 0⟩ (0, 15) =
      .ok ⟨[{ drop0 with
               stock := drop0.stock - 1, sold := drop0.sold + 1,
               redemptions := drop0.redemptions + 1 }], none,
           0 + 1, 0 + 1, 0 + 1⟩ :=
  C9_no_time_gating drop0 15 10 3 0 0 0 0 oracleN oracleB oracleQ
    (by norm_num [drop0]) (by norm_num)
    (by norm_num [drop0])
    (by norm_num [oracleQ, drop0, observed_conversion, urgency_multiplier,
      zero_div])

/-- C10: one loop iteration either leaves every field of every drop (and
the token/redemption counters) unchanged — the skipped-arrival and
Bernoulli-failure cases — or, on a Bernoulli success, updates exactly the
chosen eligible drop in place: its `stock` by `-1`, `sold` by `+1`,
`redemptions` by `+1`, with `name`, `base_p` and `duration_s` untouched
and every other drop untouched; the mutated list is what the run carries
forward (and returns to the caller), so a repeated invocation on the
returned list resumes from the depleted stock. -/
theorem C10_frame_effect (policy : String) (pick : ℕ → ℕ)
    (betaO : ℕ → ℕ → ℚ) (bern : ℕ → ℚ) (s s2 : SimState) (jt : ℕ × ℤ)
    (h : step policy pick betaO bern s jt = .ok s2) :
    (s2.drops = s.drops ∧ s2.tokens = s.tokens ∧
      s2.redemptions = s.redemptions) ∨
    (∃ i, i < s.drops.length ∧ 0 < (s.drops.getD i default).stock ∧
      bern jt.1 < observed_conversion (s.drops.getD i default).base_p
        ((max 0 ((s.drops.getD i default).duration_s - jt.2) : ℤ) : ℚ)
        (((s.drops.getD i default).duration_s : ℤ) : ℚ) ∧
      (s2.drops.getD i default).stock = (s.drops.getD i default).stock - 1 ∧
      (s2.drops.getD i default).sold = (s.drops.getD i default).sold + 1 ∧
      (s2.drops.getD i default).redemptions =
        (s.drops.getD i default).redemptions + 1 ∧
      (s2.drops.getD i default).name = (s.drops.getD i default).name ∧
      (s2.drops.getD i default).base_p = (s.drops.getD i default).base_p ∧
      (s2.drops.getD i default).duration_s =
        (s.drops.getD i default).duration_s ∧
      (∀ i2, i2 ≠ i → s2.drops.getD i2 default = s.drops.getD i2 default) ∧
      s2.views = s.views + 1 ∧ s2.tokens = s.tokens + 1 ∧
      s2.redemptions = s.redemptions + 1) := by
  rcases step_ok_cases h with ⟨hd, ht2, hr, _⟩ |
    ⟨i, hlen, hpos, hbern, hd, hv, htk, hrd⟩
  · exact Or.inl ⟨hd, ht2, hr⟩
  · refine Or.inr ⟨i, hlen, hpos, hbern, ?_, ?_, ?_, ?_, ?_, ?_, ?_,
      hv, htk, hrd⟩
    · rw [hd, getD_set_self hlen]
    · rw [hd, getD_set_self hlen]
    · rw [hd, getD_set_self hlen]
    · rw [hd, getD_set_self hlen]
    · rw [hd, getD_set_self hlen]
    · rw [hd, getD_set_self hlen]
    · intro i2 hi2
      rw [hd, getD_set_ne (Ne.symm hi2)]

/-- Evaluation of one concrete converting iteration on `drop0`. -/
lemma step_eval_convert :
    step "random" oracleN oracleB oracleQ ⟨[drop0], none, 0, 0, 0⟩ (0, 15) =
      .ok ⟨[drop0mid], none, 1, 1, 1⟩ := by
  have hr1 : List.range 1 = [0] := by decide
  norm_num [step, chooseIdx, availableOf, agentObserve, observed_conversion,
    urgency_multiplier, oracleN, oracleB, oracleQ, drop0, drop0mid,
    List.getD, List.filter, hr1]

/-- Witness for C10: the concrete converting iteration on `drop0` falls
in the mutation case with all frame conditions holding. -/
theorem C10_witness :
    (((⟨[drop0mid], none, 1, 1, 1⟩ : SimState)).drops =
        ((⟨[drop0], none, 0, 0, 0⟩ : SimState)).drops ∧
      ((⟨[drop0mid], none, 1, 1, 1⟩ : SimState)).tokens =
        ((⟨[drop0], none, 0, 0, 0⟩ : SimState)).tokens ∧
      ((⟨[drop0mid], none, 1, 1, 1⟩ : SimState)).redemptions =
        ((⟨[drop0], none, 0, 0, 0⟩ : SimState)).redemptions) ∨
    (∃ i, i < ((⟨[drop0], none, 0, 0, 0⟩ : SimState)).drops.length ∧
      0 < (((⟨[drop0], none, 0, 0, 0⟩ : SimState)).drops.getD i
        default).stock ∧
      oracleQ (0, (15 : ℤ)).1 < observed_conversion
        ((((⟨[drop0], none, 0, 0, 0⟩ : SimState)).drops.getD i
          default).base_p)
        ((max 0 ((((⟨[drop0], none, 0, 0, 0⟩ : SimState)).drops.getD i
          default).duration_s - (0, (15 : ℤ)).2) : ℤ) : ℚ)
        (((((⟨[drop0], none, 0, 0, 0⟩ : SimState)).drops.getD i
          default).duration_s : ℤ) : ℚ) ∧
      (((⟨[drop0mid], none, 1, 1, 1⟩ : SimState)).drops.getD i
          default).stock =
        (((⟨[drop0], none, 0, 0, 0⟩ : SimState)).drops.getD i
          default).stock - 1 ∧
      (((⟨[drop0mid], none, 1, 1, 1⟩ : SimState)).drops.getD i
          default).sold =
        (((⟨[drop0], none, 0, 0, 0⟩ : SimState)).drops.getD i
          default).sold + 1 ∧
      (((⟨[drop0mid], none, 1, 1, 1⟩ : SimState)).drops.getD i
          default).redemptions =
        (((⟨[drop0], none, 0, 0, 0⟩ : SimState)).drops.getD i
          default).redemptions + 1 ∧
      (((⟨[drop0mid], none, 1, 1, 1⟩ : SimState)).drops.getD i
          default).name =
        (((⟨[drop0], none, 0, 0, 0⟩ : SimState)).drops.getD i
          default).name ∧
      (((⟨[drop0mid], none, 1, 1, 1⟩ : SimState)).drops.getD i
          default).base_p =
        (((⟨[drop0], none, 0, 0, 0⟩ : SimState)).drops.getD i
          default).base_p ∧
      (((⟨[drop0mid], none, 1, 1, 1⟩ : SimState)).drops.getD i
          default).duration_s =
        (((⟨[drop0], none, 0, 0, 0⟩ : SimState)).drops.getD i
          default).duration_s ∧
      (∀ i2, i2 ≠ i →
        ((⟨[drop0mid], none, 1, 1, 1⟩ : SimState)).drops.getD i2 default =
        ((⟨[drop0], none, 0, 0, 0⟩ : SimState)).drops.getD i2 default) ∧
      ((⟨[drop0mid], none, 1, 1, 1⟩ : SimState)).views =
        ((⟨[drop0], none, 0, 0, 0⟩ : SimState)).views + 1 ∧
      ((⟨[drop0mid], none, 1, 1, 1⟩ : SimState)).tokens =
        ((⟨[drop0], none, 0, 0, 0⟩ : SimState)).tokens + 1 ∧
      ((⟨[drop0mid], none, 1, 1, 1⟩ : SimState)).redemptions =
        ((⟨[drop0], none, 0, 0, 0⟩ : SimState)).redemptions + 1) :=
  C10_frame_effect "random" oracleN oracleB oracleQ
    ⟨[drop0], none, 0, 0, 0⟩ ⟨[drop0mid], none, 1, 1, 1⟩ (0, 15)
    step_eval_convert
